import Mathlib

/-!
Honeycomb reporter (custom-cats-reporters/honeycomb/honeycomb_reporter.go)

A shallow embedding of the Honeycomb test-result reporter and proofs of the
properties stated about it.

Modelling conventions

* A Go `string` is a Lean `String`.
* A Go `map[string]interface{}` is `GoMap V`: either the nil map (`none`) or a
  table of key/value entries; `V` stands for the values an `interface{}` can hold.
* A Go pointer argument is an `Option`: `none` is the nil pointer.
* A `panic` is the `Except.error` result carrying the panic message.
* Calls made on the external client are recorded, in order, in the `calls`
  trace of a `Run`; the client is external code and its `SendEvent` is taken to
  return to the reporter.
-/

namespace Honeycomb

/-! ## Data model -/

/-- Go `map[string]interface{}`: `none` is the nil map (the zero value). -/
abbrev GoMap (V : Type) := Option (List (String × V))

/-- Value stored under a key of a Go map, if the key is present (a nil map has no keys). -/
def GoMap.lookup {V : Type} (m : GoMap V) (k : String) : Option V :=
  match m with
  | none => none
  | some kvs => (kvs.find? (fun kv => kv.1 == k)).map (fun kv => kv.2)

/-- Ginkgo `types.SpecState`, declared as `type SpecState uint`. -/
abbrev SpecState := Nat

/-- Modelled from the spec: the constants of ginkgo `types.SpecState` (the package
`github.com/onsi/ginkgo/types` is not part of the sources); they are the seven outcome
kinds, numbered by their declaration order. -/
def SpecStateInvalid : SpecState := 0

/-- Modelled from the spec: ginkgo `types.SpecStatePending`. -/
def SpecStatePending : SpecState := 1

/-- Modelled from the spec: ginkgo `types.SpecStateSkipped`. -/
def SpecStateSkipped : SpecState := 2

/-- Modelled from the spec: ginkgo `types.SpecStatePassed`. -/
def SpecStatePassed : SpecState := 3

/-- Modelled from the spec: ginkgo `types.SpecStateFailed`. -/
def SpecStateFailed : SpecState := 4

/-- Modelled from the spec: ginkgo `types.SpecStatePanicked`. -/
def SpecStatePanicked : SpecState := 5

/-- Modelled from the spec: ginkgo `types.SpecStateTimedOut`. -/
def SpecStateTimedOut : SpecState := 6

/-- The seven recognised outcome kinds (passed, failed, pending, skipped, panicked,
timedOut, invalid). -/
def recognisedStates : List SpecState :=
  [SpecStatePassed, SpecStateFailed, SpecStatePending, SpecStateSkipped,
   SpecStatePanicked, SpecStateTimedOut, SpecStateInvalid]

/-- A spec state is recognised when it is one of the seven outcome kinds. -/
def recognised (state : SpecState) : Prop := state ∈ recognisedStates

instance (state : SpecState) : Decidable (recognised state) := by
  unfold recognised; infer_instance

/-- The seven state strings an event can carry. -/
def stateStrings : List String :=
  ["passed", "failed", "pending", "skipped", "panicked", "timedOut", "invalid"]

/-- Modelled from the spec: ginkgo `types.SpecSummary` (declared outside the sources),
restricted to the two fields the reporter reads: the ordered group/description texts and
the outcome code. -/
structure SpecSummary where
  ComponentTexts : List String
  State : SpecState
  deriving DecidableEq, Repr

/-- `SpecEvent` (honeycomb_reporter.go, lines 10-14). -/
structure SpecEvent (V : Type) where
  Description : String
  State : String
  GlobalTags : GoMap V
  deriving DecidableEq, Repr

/-- `honeyCombReporter` (lines 16-19); `C` is the type of clients. -/
structure honeyCombReporter (C V : Type) where
  client : C
  globalTags : GoMap V
  deriving DecidableEq, Repr

/-- One `SendEvent(event, tags)` call, together with the client it was made on. -/
structure SendEventCall (C V : Type) where
  receiver : C
  event : SpecEvent V
  tags : GoMap V
  deriving DecidableEq, Repr

deriving instance DecidableEq for Except

/-- The observable behaviour of running a piece of reporter code: the `SendEvent` calls
it made, in order, and how it ended (`ok` with its result, or `error` with the panic
message). -/
structure Run (C V α : Type) where
  calls : List (SendEventCall C V)
  result : Except String α
  deriving DecidableEq

/-- Sequencing of two runs: the second starts from the result of the first and does not
start at all when the first panicked. -/
def Run.andThen {C V α β : Type} (r : Run C V α) (f : α → Run C V β) : Run C V β :=
  match r.result with
  | .error msg => ⟨r.calls, .error msg⟩
  | .ok a => ⟨r.calls ++ (f a).calls, (f a).result⟩

/-! ## Go standard library: `strings.Join`, `strings.Index`, `strings.Count`, `strings.Split` -/

/-- Go `strings.Join`: no elements give the empty string, one element gives that element,
otherwise the first element is written to a builder followed, for each later element, by
the separator and the element. -/
def Join (elems : List String) (sep : String) : String :=
  match elems with
  | [] => ""
  | [e] => e
  | e :: rest => rest.foldl (fun b s => b ++ sep ++ s) e

/-- Go `strings.Index` on character sequences: the offset of the first instance of `sep`
in `s`, or `none` (Go returns -1) when there is none. -/
def indexChars : List Char → List Char → Option Nat
  | [], sep => if sep.isPrefixOf [] then some 0 else none
  | c :: t, sep => if sep.isPrefixOf (c :: t) then some 0 else (indexChars t sep).map (· + 1)

/-- Go `strings.Index`. -/
def Index (s substr : String) : Option Nat := indexChars s.data substr.data

/-- The loop of Go `strings.Count` for a non-empty separator: find the first instance,
count it, continue after it. An instance consumes at least one character, so the loop
makes at most `len(s)` rounds; `fuel` bounds the rounds. -/
def countLoop (sep : List Char) : Nat → List Char → Nat
  | 0, _ => 0
  | fuel + 1, s =>
    match indexChars s sep with
    | none => 0
    | some i => countLoop sep fuel (s.drop (i + sep.length)) + 1

/-- Go `strings.Count`: the number of non-overlapping instances of `substr` in `s`; for
the empty `substr` it is the number of characters of `s` plus one. -/
def Count (s substr : String) : Nat :=
  if substr.data = [] then s.data.length + 1
  else countLoop substr.data s.data.length s.data

/-- The loop of Go `strings.genSplit` (with `sepSave = 0`): while fewer than `n` pieces
were cut and `sep` occurs in `s`, cut the piece before the first instance and continue
after the instance; the remainder is the last piece. -/
def splitLoop (sep : List Char) : Nat → List Char → List (List Char)
  | 0, s => [s]
  | n + 1, s =>
    match indexChars s sep with
    | none => [s]
    | some m => s.take m :: splitLoop sep n (s.drop (m + sep.length))

/-- Go `strings.Split(s, sep)`, that is `genSplit(s, sep, 0, -1)`: with an empty `sep`
the string is exploded into its characters; otherwise at most `Count(s, sep)` pieces are
cut before the last one. -/
def Split (s sep : String) : List String :=
  if sep.data = [] then s.data.map (fun c => String.mk [c])
  else (splitLoop sep.data (Count s sep) s.data).map String.mk

/-! ## The reporter -/

/-- `New` (lines 21-23): the tag set is left at its zero value, the nil map. -/
def New {C V : Type} (client : C) : honeyCombReporter C V :=
  { client := client, globalTags := none }

/-- `getTestState` (lines 45-64): the switch over the spec state; the default case panics. -/
def getTestState (state : SpecState) : Except String String :=
  if state = SpecStatePassed then .ok "passed"
  else if state = SpecStateFailed then .ok "failed"
  else if state = SpecStatePending then .ok "pending"
  else if state = SpecStateSkipped then .ok "skipped"
  else if state = SpecStatePanicked then .ok "panicked"
  else if state = SpecStateTimedOut then .ok "timedOut"
  else if state = SpecStateInvalid then .ok "invalid"
  else .error "unknown spec state"

/-- `createTestDescription` (lines 66-68). -/
def createTestDescription (componentTexts : List String) : String :=
  Join componentTexts " | "

/-- `honeyCombReporter.SpecDidComplete` (lines 25-32). The summary pointer is
dereferenced first; the event literal sets `State` and `Description` only, so its
`GlobalTags` field keeps the zero value; then `SendEvent` is called on the client with
the event and the reporter tag set. The receiver is passed by value, so the reporter of
the caller is the same afterwards. -/
def SpecDidComplete {C V : Type} (hr : honeyCombReporter C V)
    (specSummary : Option SpecSummary) : Run C V (honeyCombReporter C V) :=
  match specSummary with
  | none => ⟨[], .error "invalid memory address or nil pointer dereference"⟩
  | some summary =>
    match getTestState summary.State with
    | .error msg => ⟨[], .error msg⟩
    | .ok state =>
      let specEvent : SpecEvent V :=
        { State := state
          Description := createTestDescription summary.ComponentTexts
          GlobalTags := none }
      ⟨[⟨hr.client, specEvent, hr.globalTags⟩], .ok hr⟩

/-- `honeyCombReporter.SpecSuiteWillBegin` (lines 34-35): empty body. -/
def SpecSuiteWillBegin {C V Cfg SuiteSummary : Type} (hr : honeyCombReporter C V)
    (_config : Cfg) (_summary : Option SuiteSummary) : Run C V (honeyCombReporter C V) :=
  ⟨[], .ok hr⟩

/-- `honeyCombReporter.BeforeSuiteDidRun` (line 36): empty body. -/
def BeforeSuiteDidRun {C V SetupSummary : Type} (hr : honeyCombReporter C V)
    (_setupSummary : Option SetupSummary) : Run C V (honeyCombReporter C V) :=
  ⟨[], .ok hr⟩

/-- `honeyCombReporter.SpecWillRun` (line 37): empty body. -/
def SpecWillRun {C V : Type} (hr : honeyCombReporter C V)
    (_specSummary : Option SpecSummary) : Run C V (honeyCombReporter C V) :=
  ⟨[], .ok hr⟩

/-- `honeyCombReporter.AfterSuiteDidRun` (line 38): empty body. -/
def AfterSuiteDidRun {C V SetupSummary : Type} (hr : honeyCombReporter C V)
    (_setupSummary : Option SetupSummary) : Run C V (honeyCombReporter C V) :=
  ⟨[], .ok hr⟩

/-- `honeyCombReporter.SpecSuiteDidEnd` (line 39): empty body. -/
def SpecSuiteDidEnd {C V SuiteSummary : Type} (hr : honeyCombReporter C V)
    (_summary : Option SuiteSummary) : Run C V (honeyCombReporter C V) :=
  ⟨[], .ok hr⟩

/-- `honeyCombReporter.SetGlobalTags` (lines 41-43): the pointer receiver is updated in
place; the updated reporter is returned. -/
def SetGlobalTags {C V : Type} (hr : honeyCombReporter C V) (globalTags : GoMap V) :
    honeyCombReporter C V :=
  { hr with globalTags := globalTags }

/-! ## Example values -/

/-- The tag map with the single entry "env" -> "ci". -/
def tagsEnvCi : GoMap String := some [("env", "ci")]

/-- A reporter on the trivial client, configured with the tags "env" -> "ci". -/
def reporterEnvCi : honeyCombReporter Unit String := SetGlobalTags (New ()) tagsEnvCi

/-- A failed spec with component texts "Suite", "Test A". -/
def summarySuiteTestA : SpecSummary := ⟨["Suite", "Test A"], SpecStateFailed⟩

/-- A passed spec with component texts "Suite", "Test B". -/
def summarySuiteTestB : SpecSummary := ⟨["Suite", "Test B"], SpecStatePassed⟩

/-- A summary whose state (7) is none of the seven recognised ones. -/
def summaryUnknownState : SpecSummary := ⟨["Suite", "Test A"], 7⟩

/-! ## Auxiliary lemmas -/

theorem recognised_iff (state : SpecState) :
    recognised state ↔
      state = SpecStatePassed ∨ state = SpecStateFailed ∨ state = SpecStatePending ∨
      state = SpecStateSkipped ∨ state = SpecStatePanicked ∨ state = SpecStateTimedOut ∨
      state = SpecStateInvalid := by
  simp [recognised, recognisedStates]

theorem getTestState_of_recognised (state : SpecState) (h : recognised state) :
    ∃ s, s ∈ stateStrings ∧ getTestState state = .ok s := by
  rw [recognised_iff] at h
  rcases h with h | h | h | h | h | h | h <;> subst h <;>
    exact ⟨_, by simp [stateStrings], rfl⟩

theorem getTestState_of_not_recognised (state : SpecState) (h : ¬ recognised state) :
    getTestState state = .error "unknown spec state" := by
  rw [recognised_iff] at h
  simp only [not_or] at h
  obtain ⟨h1, h2, h3, h4, h5, h6, h7⟩ := h
  simp [getTestState, h1, h2, h3, h4, h5, h6, h7]

theorem foldl_sep_append (sep x y : String) (l : List String) :
    l.foldl (fun b s => b ++ sep ++ s) (x ++ y) = x ++ l.foldl (fun b s => b ++ sep ++ s) y := by
  induction l generalizing y with
  | nil => rfl
  | cons e l ih =>
    simp only [List.foldl_cons]
    rw [String.append_assoc, String.append_assoc, ← String.append_assoc y, ih]

theorem Join_cons_cons (sep a b : String) (rest : List String) :
    Join (a :: b :: rest) sep = a ++ sep ++ Join (b :: rest) sep := by
  cases rest with
  | nil => rfl
  | cons c rest =>
    simp only [Join, List.foldl_cons]
    rw [String.append_assoc, String.append_assoc, ← String.append_assoc b, foldl_sep_append,
      foldl_sep_append, String.append_assoc]

theorem foldl_append_acc (acc : String) (l : List String) :
    l.foldl (fun r s => r ++ s) acc = acc ++ l.foldl (fun r s => r ++ s) "" := by
  induction l generalizing acc with
  | nil => simp
  | cons e l ih =>
    simp only [List.foldl_cons]
    rw [ih (acc ++ e), ih ("" ++ e), String.append_assoc]
    simp

theorem String_join_cons (a : String) (l : List String) :
    String.join (a :: l) = a ++ String.join l := by
  simp only [String.join, List.foldl_cons]
  rw [foldl_append_acc]
  simp

theorem Join_eq_join_intersperse (sep : String) (elems : List String) :
    Join elems sep = String.join (elems.intersperse sep) := by
  induction elems with
  | nil => rfl
  | cons a l ih =>
    cases l with
    | nil => simp [Join, String.join]
    | cons b rest =>
      rw [Join_cons_cons, ih, List.intersperse_cons_cons, String_join_cons, String_join_cons,
        String.append_assoc]

theorem SpecDidComplete_of_ok {C V : Type} (hr : honeyCombReporter C V)
    (summary : SpecSummary) (state : String) (h : getTestState summary.State = .ok state) :
    SpecDidComplete hr (some summary) =
      ⟨[⟨hr.client, ⟨createTestDescription summary.ComponentTexts, state, none⟩,
          hr.globalTags⟩], .ok hr⟩ := by
  simp [SpecDidComplete, h]

theorem SpecDidComplete_of_error {C V : Type} (hr : honeyCombReporter C V)
    (summary : SpecSummary) (msg : String) (h : getTestState summary.State = .error msg) :
    SpecDidComplete hr (some summary) = ⟨[], .error msg⟩ := by
  simp [SpecDidComplete, h]

/-! ### Splitting a joined description -/

/-- The characters of the separator " | ". -/
theorem sep_data : (" | " : String).data = [' ', '|', ' '] := rfl

theorem indexChars_none_of_no_bar (s : List Char) (h : '|' ∉ s) :
    indexChars s [' ', '|', ' '] = none := by
  induction s with
  | nil => rfl
  | cons c t ih =>
    have ht : '|' ∉ t := fun hm => h (List.mem_cons_of_mem c hm)
    have hp : List.isPrefixOf [' ', '|', ' '] (c :: t) = false := by
      cases t with
      | nil => simp [List.isPrefixOf]
      | cons d u =>
        have hd : ¬ ('|' = d) := fun e => ht (e ▸ List.mem_cons_self _ _)
        simp [List.isPrefixOf, hd]
    simp [indexChars, hp, ih ht]

theorem indexChars_first_sep (e r : List Char) (h : '|' ∉ e) :
    indexChars (e ++ [' ', '|', ' '] ++ r) [' ', '|', ' '] = some e.length := by
  induction e with
  | nil => simp [indexChars, List.isPrefixOf]
  | cons c t ih =>
    have ht : '|' ∉ t := fun hm => h (List.mem_cons_of_mem c hm)
    have hp : List.isPrefixOf [' ', '|', ' '] (c :: t ++ [' ', '|', ' '] ++ r) = false := by
      cases t with
      | nil => simp [List.isPrefixOf]
      | cons d u =>
        have hd : ¬ ('|' = d) := fun e => ht (e ▸ List.mem_cons_self _ _)
        simp [List.isPrefixOf, hd]
    have ih2 := ih ht
    simp only [List.cons_append] at hp ih2 ⊢
    rw [indexChars, hp, ih2]
    rfl

theorem take_first_piece (e r : List Char) :
    (e ++ [' ', '|', ' '] ++ r).take e.length = e := by
  simp [List.append_assoc]

theorem drop_first_piece (e r : List Char) :
    (e ++ [' ', '|', ' '] ++ r).drop (e.length + [' ', '|', ' '].length) = r := by
  have h : e.length + [' ', '|', ' '].length = (e ++ [' ', '|', ' ']).length := by simp
  rw [h, List.drop_left]

theorem Join_data_cons_cons (a b : String) (rest : List String) :
    (Join (a :: b :: rest) " | ").data =
      a.data ++ [' ', '|', ' '] ++ (Join (b :: rest) " | ").data := by
  rw [Join_cons_cons, String.data_append, String.data_append, sep_data]

theorem Join_length_ge (elems : List String) :
    elems.length - 1 ≤ (Join elems " | ").data.length := by
  induction elems with
  | nil => simp
  | cons a l ih =>
    cases l with
    | nil => simp
    | cons b rest =>
      rw [Join_data_cons_cons]
      simp only [List.length_append, List.length_cons, List.length_nil] at ih ⊢
      omega

theorem countLoop_Join (elems : List String) (hne : elems ≠ [])
    (hbar : ∀ e ∈ elems, '|' ∉ e.data) (fuel : Nat) (hfuel : elems.length - 1 ≤ fuel) :
    countLoop [' ', '|', ' '] fuel (Join elems " | ").data = elems.length - 1 := by
  induction elems generalizing fuel with
  | nil => exact absurd rfl hne
  | cons a l ih =>
    cases l with
    | nil =>
      have hn := indexChars_none_of_no_bar a.data (hbar a (List.mem_cons_self _ _))
      cases fuel with
      | zero => rfl
      | succ f => simp [countLoop, Join, hn]
    | cons b rest =>
      cases fuel with
      | zero => simp at hfuel
      | succ f =>
        have ha := hbar a (List.mem_cons_self _ _)
        have hrest : ∀ e ∈ b :: rest, '|' ∉ e.data :=
          fun e he => hbar e (List.mem_cons_of_mem a he)
        have hf : (b :: rest).length - 1 ≤ f := by
          simp only [List.length_cons] at hfuel ⊢
          omega
        rw [Join_data_cons_cons]
        simp only [countLoop, indexChars_first_sep _ _ ha]
        rw [drop_first_piece, ih (List.cons_ne_nil b rest) hrest f hf]
        simp

theorem splitLoop_Join (elems : List String) (hne : elems ≠ [])
    (hbar : ∀ e ∈ elems, '|' ∉ e.data) (n : Nat) (hn : elems.length - 1 ≤ n) :
    splitLoop [' ', '|', ' '] n (Join elems " | ").data = elems.map String.data := by
  induction elems generalizing n with
  | nil => exact absurd rfl hne
  | cons a l ih =>
    cases l with
    | nil =>
      have hnone := indexChars_none_of_no_bar a.data (hbar a (List.mem_cons_self _ _))
      cases n with
      | zero => rfl
      | succ f => simp [splitLoop, Join, hnone]
    | cons b rest =>
      cases n with
      | zero => simp at hn
      | succ f =>
        have ha := hbar a (List.mem_cons_self _ _)
        have hrest : ∀ e ∈ b :: rest, '|' ∉ e.data :=
          fun e he => hbar e (List.mem_cons_of_mem a he)
        have hf : (b :: rest).length - 1 ≤ f := by
          simp only [List.length_cons] at hn ⊢
          omega
        rw [Join_data_cons_cons]
        simp only [splitLoop, indexChars_first_sep _ _ ha]
        rw [drop_first_piece, take_first_piece, ih (List.cons_ne_nil b rest) hrest f hf]
        rfl

theorem Count_Join (elems : List String) (hne : elems ≠ [])
    (hbar : ∀ e ∈ elems, '|' ∉ e.data) :
    Count (Join elems " | ") " | " = elems.length - 1 := by
  have hsep : ¬ ((" | " : String).data = []) := by decide
  simp only [Count, if_neg hsep, sep_data]
  exact countLoop_Join elems hne hbar _ (Join_length_ge elems)

theorem Split_Join (elems : List String) (hne : elems ≠ [])
    (hbar : ∀ e ∈ elems, '|' ∉ e.data) :
    Split (Join elems " | ") " | " = elems := by
  have hsep : ¬ ((" | " : String).data = []) := by decide
  simp only [Split, if_neg hsep]
  rw [Count_Join elems hne hbar, splitLoop_Join elems hne hbar _ (Nat.le_refl _),
    List.map_map]
  exact List.map_id elems

/-! ## Claims -/

/-- C1: for every reporter and every spec summary whose state is one of the seven
recognised states, `SpecDidComplete` returns normally after exactly one `SendEvent` call,
made on the reporter client; the event has `Description` equal to the component texts
joined by " | " and `State` equal to what `getTestState` returns for the summary state,
and the tags argument is the reporter tag set. -/
theorem SpecDidComplete_sends_exactly_one_event {C V : Type} (hr : honeyCombReporter C V)
    (summary : SpecSummary) (h : recognised summary.State) :
    ∃ event : SpecEvent V,
      SpecDidComplete hr (some summary) = ⟨[⟨hr.client, event, hr.globalTags⟩], .ok hr⟩ ∧
      event.Description = Join summary.ComponentTexts " | " ∧
      getTestState summary.State = .ok event.State := by
  obtain ⟨state, -, hs⟩ := getTestState_of_recognised summary.State h
  exact ⟨⟨createTestDescription summary.ComponentTexts, state, none⟩,
    SpecDidComplete_of_ok hr summary state hs, rfl, hs⟩

/-- Witness of C1 on the reporter tagged "env" -> "ci" and the failed spec
"Suite", "Test A". -/
theorem SpecDidComplete_sends_exactly_one_event_witness :
    recognised summarySuiteTestA.State ∧
    ∃ event : SpecEvent String,
      SpecDidComplete reporterEnvCi (some summarySuiteTestA) =
        ⟨[⟨reporterEnvCi.client, event, reporterEnvCi.globalTags⟩], .ok reporterEnvCi⟩ ∧
      event.Description = Join summarySuiteTestA.ComponentTexts " | " ∧
      getTestState summarySuiteTestA.State = .ok event.State :=
  ⟨by decide, SpecDidComplete_sends_exactly_one_event reporterEnvCi summarySuiteTestA
    (by decide)⟩

/-- C2: on each of the seven recognised spec states `getTestState` returns the documented
string and does not panic. -/
theorem getTestState_recognised_values :
    getTestState SpecStatePassed = .ok "passed" ∧
    getTestState SpecStateFailed = .ok "failed" ∧
    getTestState SpecStatePending = .ok "pending" ∧
    getTestState SpecStateSkipped = .ok "skipped" ∧
    getTestState SpecStatePanicked = .ok "panicked" ∧
    getTestState SpecStateTimedOut = .ok "timedOut" ∧
    getTestState SpecStateInvalid = .ok "invalid" :=
  ⟨rfl, rfl, rfl, rfl, rfl, rfl, rfl⟩

/-- C3: on every spec state that is not one of the seven recognised ones `getTestState`
panics with "unknown spec state" and returns no string (in particular not the empty
string); and `getTestState` returns a string exactly on the recognised states. -/
theorem getTestState_unrecognised_panics (state : SpecState) (h : ¬ recognised state) :
    getTestState state = .error "unknown spec state" ∧
    (∀ s : String, getTestState state ≠ .ok s) ∧
    (∀ st : SpecState, (∃ s : String, getTestState st = .ok s) ↔ recognised st) := by
  refine ⟨getTestState_of_not_recognised state h, ?_, ?_⟩
  · intro s hs
    rw [getTestState_of_not_recognised state h] at hs
    exact Except.noConfusion hs
  · intro st
    constructor
    · rintro ⟨s, hs⟩
      by_contra hn
      rw [getTestState_of_not_recognised st hn] at hs
      exact Except.noConfusion hs
    · intro hr
      obtain ⟨s, -, hs⟩ := getTestState_of_recognised st hr
      exact ⟨s, hs⟩

/-- Witness of C3 at the spec state 7. -/
theorem getTestState_unrecognised_panics_witness :
    ¬ recognised 7 ∧
    (getTestState 7 = .error "unknown spec state" ∧
     (∀ s : String, getTestState 7 ≠ .ok s) ∧
     (∀ st : SpecState, (∃ s : String, getTestState st = .ok s) ↔ recognised st)) :=
  ⟨by decide, getTestState_unrecognised_panics 7 (by decide)⟩

/-- C4: `createTestDescription` concatenates the elements in their order with " | "
between adjacent elements and nothing before the first or after the last: it is the
concatenation of the sequence with " | " interspersed; the empty sequence gives "", a
single element gives that element, and a longer sequence gives the first element, the
separator and the description of the rest. "A", "B", "C" gives "A | B | C" and "Only"
gives "Only". -/
theorem createTestDescription_joins_with_separator (a b : String) (rest elems : List String) :
    createTestDescription elems = String.join (elems.intersperse " | ") ∧
    createTestDescription [] = "" ∧
    createTestDescription [a] = a ∧
    createTestDescription (a :: b :: rest) = a ++ " | " ++ createTestDescription (b :: rest) ∧
    createTestDescription ["A", "B", "C"] = "A | B | C" ∧
    createTestDescription ["Only"] = "Only" :=
  ⟨Join_eq_join_intersperse " | " elems, rfl, rfl, Join_cons_cons " | " a b rest,
    by decide, by decide⟩

/-- C5, as stated, fails: with tags "env" -> "ci" and the failed spec "Suite", "Test A",
the one event sent has a nil `GlobalTags` field, not the configured tags; the tags are
the second argument of the call. -/
theorem SpecDidComplete_event_GlobalTags_not_set :
    (SpecDidComplete (SetGlobalTags (New ()) tagsEnvCi) (some summarySuiteTestA)).calls =
      [⟨(), ⟨"Suite | Test A", "failed", none⟩, tagsEnvCi⟩] ∧
    ¬ (∀ call ∈ (SpecDidComplete (SetGlobalTags (New ()) tagsEnvCi)
          (some summarySuiteTestA)).calls, call.event.GlobalTags = tagsEnvCi) := by
  decide

/-- C5, amended: for every tag map `t` and every spec summary with a recognised state,
`SetGlobalTags t` followed by `SpecDidComplete` makes exactly one `SendEvent` call whose
tags argument is exactly `t`, while the `GlobalTags` field of the event itself is left at
its zero value, the nil map; the description and state of the event are as in C1. -/
theorem SetGlobalTags_then_SpecDidComplete {C V : Type} (hr : honeyCombReporter C V)
    (t : GoMap V) (summary : SpecSummary) (h : recognised summary.State) :
    ∃ state : String,
      getTestState summary.State = .ok state ∧
      SpecDidComplete (SetGlobalTags hr t) (some summary) =
        ⟨[⟨hr.client, ⟨Join summary.ComponentTexts " | ", state, none⟩, t⟩],
          .ok (SetGlobalTags hr t)⟩ := by
  obtain ⟨state, -, hs⟩ := getTestState_of_recognised summary.State h
  exact ⟨state, hs, SpecDidComplete_of_ok (SetGlobalTags hr t) summary state hs⟩

/-- Witness of the amended C5 on the example of the claim. -/
theorem SetGlobalTags_then_SpecDidComplete_witness :
    recognised summarySuiteTestA.State ∧
    ∃ state : String,
      getTestState summarySuiteTestA.State = .ok state ∧
      SpecDidComplete (SetGlobalTags (New () : honeyCombReporter Unit String) tagsEnvCi)
          (some summarySuiteTestA) =
        ⟨[⟨(New () : honeyCombReporter Unit String).client,
            ⟨Join summarySuiteTestA.ComponentTexts " | ", state, none⟩, tagsEnvCi⟩],
          .ok (SetGlobalTags (New ()) tagsEnvCi)⟩ :=
  ⟨by decide, SetGlobalTags_then_SpecDidComplete (New ()) tagsEnvCi summarySuiteTestA
    (by decide)⟩

/-- C6: for every reporter and every spec summary whose state is not one of the seven
recognised states, `SpecDidComplete` panics ("unknown spec state") without making any
`SendEvent` call; and every event `SpecDidComplete` sends, for any reporter and any
argument, has a `State` among the seven state strings. -/
theorem SpecDidComplete_unrecognised_sends_nothing {C V : Type} (hr : honeyCombReporter C V)
    (summary : SpecSummary) (h : ¬ recognised summary.State) :
    SpecDidComplete hr (some summary) = ⟨[], .error "unknown spec state"⟩ ∧
    (∀ (hr2 : honeyCombReporter C V) (specSummary : Option SpecSummary),
      ∀ call ∈ (SpecDidComplete hr2 specSummary).calls, call.event.State ∈ stateStrings) := by
  refine ⟨SpecDidComplete_of_error hr summary _ (getTestState_of_not_recognised _ h), ?_⟩
  intro hr2 specSummary call hcall
  cases specSummary with
  | none => simp [SpecDidComplete] at hcall
  | some s2 =>
    by_cases h2 : recognised s2.State
    · obtain ⟨state, hmem, hs⟩ := getTestState_of_recognised s2.State h2
      rw [SpecDidComplete_of_ok hr2 s2 state hs] at hcall
      simp only [List.mem_singleton] at hcall
      subst hcall
      exact hmem
    · rw [SpecDidComplete_of_error hr2 s2 _ (getTestState_of_not_recognised _ h2)] at hcall
      simp at hcall

/-- Witness of C6 on a summary whose state is 7. -/
theorem SpecDidComplete_unrecognised_sends_nothing_witness :
    ¬ recognised summaryUnknownState.State ∧
    (SpecDidComplete reporterEnvCi (some summaryUnknownState) =
        ⟨[], .error "unknown spec state"⟩ ∧
     (∀ (hr2 : honeyCombReporter Unit String) (specSummary : Option SpecSummary),
       ∀ call ∈ (SpecDidComplete hr2 specSummary).calls,
         call.event.State ∈ stateStrings)) :=
  ⟨by decide, SpecDidComplete_unrecognised_sends_nothing reporterEnvCi summaryUnknownState
    (by decide)⟩

/-- C7: `SetGlobalTags` replaces the tag set and keeps the client; after
`SetGlobalTags a` and then `SetGlobalTags b` the tag set is exactly `b` (every key looks
up as it does in `b`, so no key of `a` absent from `b` survives) and the client is the one
the reporter had before both calls. -/
theorem SetGlobalTags_last_write_wins {C V : Type} (hr : honeyCombReporter C V)
    (a b : GoMap V) :
    (SetGlobalTags hr a).globalTags = a ∧
    (SetGlobalTags hr a).client = hr.client ∧
    (SetGlobalTags (SetGlobalTags hr a) b).globalTags = b ∧
    (SetGlobalTags (SetGlobalTags hr a) b).client = hr.client ∧
    SetGlobalTags (SetGlobalTags hr a) b = SetGlobalTags hr b ∧
    (∀ k : String,
      (SetGlobalTags (SetGlobalTags hr a) b).globalTags.lookup k = b.lookup k) :=
  ⟨rfl, rfl, rfl, rfl, rfl, fun _ => rfl⟩

/-- C8: for every reporter and every two spec summaries with recognised states,
`SpecDidComplete s1` followed by `SpecDidComplete s2` returns normally after exactly two
`SendEvent` calls, in that order: the call `SpecDidComplete s1` alone makes, then the call
`SpecDidComplete s2` alone makes (so the second does not depend on `s1`); the reporter
after both calls, tag set and client, is the reporter before them. -/
theorem SpecDidComplete_twice_independent {C V : Type} (hr : honeyCombReporter C V)
    (s1 s2 : SpecSummary) (h1 : recognised s1.State) (h2 : recognised s2.State) :
    ∃ call1 call2 : SendEventCall C V,
      SpecDidComplete hr (some s1) = ⟨[call1], .ok hr⟩ ∧
      SpecDidComplete hr (some s2) = ⟨[call2], .ok hr⟩ ∧
      (SpecDidComplete hr (some s1)).andThen (fun hr1 => SpecDidComplete hr1 (some s2)) =
        ⟨[call1, call2], .ok hr⟩ := by
  obtain ⟨st1, -, hs1⟩ := getTestState_of_recognised s1.State h1
  obtain ⟨st2, -, hs2⟩ := getTestState_of_recognised s2.State h2
  refine ⟨_, _, SpecDidComplete_of_ok hr s1 st1 hs1, SpecDidComplete_of_ok hr s2 st2 hs2, ?_⟩
  rw [SpecDidComplete_of_ok hr s1 st1 hs1]
  simp only [Run.andThen]
  rw [SpecDidComplete_of_ok hr s2 st2 hs2]
  rfl

/-- Witness of C8 on two different summaries. -/
theorem SpecDidComplete_twice_independent_witness :
    (recognised summarySuiteTestA.State ∧ recognised summarySuiteTestB.State) ∧
    ∃ call1 call2 : SendEventCall Unit String,
      SpecDidComplete reporterEnvCi (some summarySuiteTestA) =
        ⟨[call1], .ok reporterEnvCi⟩ ∧
      SpecDidComplete reporterEnvCi (some summarySuiteTestB) =
        ⟨[call2], .ok reporterEnvCi⟩ ∧
      (SpecDidComplete reporterEnvCi (some summarySuiteTestA)).andThen
          (fun hr1 => SpecDidComplete hr1 (some summarySuiteTestB)) =
        ⟨[call1, call2], .ok reporterEnvCi⟩ :=
  ⟨⟨by decide, by decide⟩, SpecDidComplete_twice_independent reporterEnvCi
    summarySuiteTestA summarySuiteTestB (by decide) (by decide)⟩

/-- C9: the five lifecycle callbacks `SpecSuiteWillBegin`, `BeforeSuiteDidRun`,
`SpecWillRun`, `AfterSuiteDidRun` and `SpecSuiteDidEnd` are no-ops: for every reporter
and every argument (nil pointers included) each returns normally, makes no `SendEvent`
call and leaves the reporter, tag set and client, as it was. -/
theorem lifecycle_callbacks_are_noops {C V Cfg SuiteSummary SetupSummary : Type}
    (hr : honeyCombReporter C V) (config : Cfg) (summary : Option SuiteSummary)
    (setupSummary : Option SetupSummary) (specSummary : Option SpecSummary) :
    SpecSuiteWillBegin hr config summary = ⟨[], .ok hr⟩ ∧
    BeforeSuiteDidRun hr setupSummary = ⟨[], .ok hr⟩ ∧
    SpecWillRun hr specSummary = ⟨[], .ok hr⟩ ∧
    AfterSuiteDidRun hr setupSummary = ⟨[], .ok hr⟩ ∧
    SpecSuiteDidEnd hr summary = ⟨[], .ok hr⟩ :=
  ⟨rfl, rfl, rfl, rfl, rfl⟩

/-- C10: for every non-empty sequence of strings none of which contains the character
'|', splitting `createTestDescription` of the sequence on " | " (Go `strings.Split`) gives
back the sequence, same elements in the same order; while the two different sequences
"A | B" and "A", "B" have the same description. -/
theorem Split_createTestDescription_roundtrip (componentTexts : List String)
    (hne : componentTexts ≠ []) (hbar : ∀ e ∈ componentTexts, '|' ∉ e.data) :
    Split (createTestDescription componentTexts) " | " = componentTexts ∧
    (["A | B"] ≠ ["A", "B"] ∧
      createTestDescription ["A | B"] = createTestDescription ["A", "B"]) :=
  ⟨Split_Join componentTexts hne hbar, by decide, by decide⟩

/-- Witness of C10 on the component texts "Suite", "Test A". -/
theorem Split_createTestDescription_roundtrip_witness :
    (["Suite", "Test A"] ≠ [] ∧ ∀ e ∈ ["Suite", "Test A"], '|' ∉ e.data) ∧
    (Split (createTestDescription ["Suite", "Test A"]) " | " = ["Suite", "Test A"] ∧
     (["A | B"] ≠ ["A", "B"] ∧
        createTestDescription ["A | B"] = createTestDescription ["A", "B"])) :=
  ⟨⟨by decide, by decide⟩,
    Split_createTestDescription_roundtrip ["Suite", "Test A"] (by decide) (by decide)⟩

/-- C11: `getTestState` is injective on the recognised states: when it returns the same
result for two of the seven recognised spec states, the two states are equal, so two
different outcomes are never reported under the same state string. -/
theorem getTestState_injective_on_recognised (state1 state2 : SpecState)
    (h1 : recognised state1) (h2 : recognised state2)
    (h : getTestState state1 = getTestState state2) : state1 = state2 := by
  rw [recognised_iff] at h1 h2
  rcases h1 with h1 | h1 | h1 | h1 | h1 | h1 | h1 <;>
    rcases h2 with h2 | h2 | h2 | h2 | h2 | h2 | h2 <;>
    subst h1 <;> subst h2 <;>
    first
      | rfl
      | exact absurd h (by decide)

/-- Witness of C11 at the failed state, the only way two recognised states can share
a result. -/
theorem getTestState_injective_on_recognised_witness :
    (recognised SpecStateFailed ∧ recognised SpecStateFailed ∧
      getTestState SpecStateFailed = getTestState SpecStateFailed) ∧
    SpecStateFailed = SpecStateFailed :=
  ⟨⟨by decide, by decide, rfl⟩,
    getTestState_injective_on_recognised SpecStateFailed SpecStateFailed
      (by decide) (by decide) rfl⟩

end Honeycomb
